import Mathlib

/-!
Verification of the GPP core (version graph, push manager, storage and git
backend) against its specification.  The Rust sources are shallowly embedded:
hash sets and hash maps become association lists whose enumeration order is
the (unspecified) iteration order of the Rust collection, subprocess and
filesystem effects become explicit oracles or effect logs, and the unbounded
walk loops of the push manager become fuel-indexed recursions in which fuel
exhaustion is an error (so a successful result implies termination of the
original loop).
-/

set_option autoImplicit false

namespace Gpp

/-- Node identifier: the git commit hash string (core/src/types.rs). -/
abbrev NodeId := String

/-- Author record (core/src/types.rs). -/
structure Author where
  name : String
  email : String
deriving DecidableEq, Repr

/-- Payload of a node: the tree object id (core/src/types.rs). -/
structure NodePayload where
  tree_id : String
deriving DecidableEq, Repr

/-- Remote reference (core/src/types.rs).  In Rust the specs field is a
HashMap that does not participate in equality or hashing; it is kept here as
an association list. -/
structure RemoteRef where
  name : String
  url : String
  specs : List (String × String)
deriving DecidableEq, Repr

/-- Tag record (core/src/types.rs), with the timestamp as a Nat. -/
structure Tag where
  name : String
  created_at : Nat
  meta : List (String × String)
deriving DecidableEq, Repr

/-- Graph node (core/src/types.rs).  The children and remotes hash sets are
lists in iteration order; tags and metadata hash maps are association
lists. -/
structure Node where
  id : NodeId
  parents : List NodeId
  children : List NodeId
  author : Author
  message : String
  created_at : Nat
  payload : NodePayload
  remotes : List RemoteRef
  tags : List (String × Tag)
  metadata : List (String × String)
deriving DecidableEq, Repr

/-- Identity of remote references: name and url only, mirroring the manual
PartialEq and Hash impls in core/src/types.rs (specs excluded). -/
def remoteIdEq (a b : RemoteRef) : Bool :=
  a.name == b.name && a.url == b.url

/-- Membership in a remote set enumeration: HashSet contains under the
(name, url) identity, as used by validate_contiguous_remotes. -/
def remotesContains (rs : List RemoteRef) (r : RemoteRef) : Bool :=
  rs.any (fun x => remoteIdEq x r)

/-- HashSet insert on a remote set enumeration: a no-op when an element with
the same (name, url) identity is already present. -/
def remotesInsert (rs : List RemoteRef) (r : RemoteRef) : List RemoteRef :=
  if remotesContains rs r then rs else rs ++ [r]

/-- HashSet insert on the children set of a node. -/
def childrenInsert (cs : List NodeId) (c : NodeId) : List NodeId :=
  if cs.contains c then cs else cs ++ [c]

/-- In-memory image of JsonStorage: the HashMap from node id to node as an
association list (storage-file/src/json_storage.rs). -/
abbrev Storage := List (NodeId × Node)

/-- HashMap get on the storage image (JsonStorage::load_node success case). -/
def lookupNode : Storage → NodeId → Option Node
  | [], _ => none
  | kv :: rest, id => if kv.1 == id then some kv.2 else lookupNode rest id

/-- HashMap insert keyed by the node id (JsonStorage::persist_node): the new
binding shadows and removes any previous binding for the same id. -/
def persistNode (st : Storage) (n : Node) : Storage :=
  (n.id, n) :: st.filter (fun kv => kv.1 != n.id)

/-- Well-formedness of a storage image: every binding maps an id to a node
carrying that id, as JsonStorage maintains by always keying on node.id. -/
def storageWF (st : Storage) : Bool :=
  st.all (fun kv => kv.2.id == kv.1)

/-- Internal git ref under which the push manager records the last pushed
node of a remote: PushManager::get_remote_tip builds
refs/gpp/remote/<name> (core/src/push_manager.rs). -/
def remoteTipRefName (remoteName : String) : String :=
  "refs/gpp/remote/" ++ remoteName

/-- PushManager::get_remote_tip: read the internal ref through the backend.
The backend read_ref is the oracle argument. -/
def getRemoteTip (readRef : String → Except String (Option NodeId))
    (remoteName : String) : Except String (Option NodeId) :=
  readRef (remoteTipRefName remoteName)

/-- PushManager::validate_contiguous_remotes: walk from start toward the
remote tip, requiring the remote (by name and url) in every visited node,
stopping at the tip or at a root, and always stepping to parents[0] only.
Fuel replaces the unbounded Rust loop; running out of fuel is an error, so
an ok result implies the loop terminated. -/
def validateContiguousRemotes (st : Storage) (remote : RemoteRef)
    (endId : Option NodeId) : Nat → NodeId → Except String Unit
  | 0, _ => .error "fuel exhausted"
  | fuel + 1, currentId =>
    if endId = some currentId then .ok ()
    else
      match lookupNode st currentId with
      | none => .error ("failed to get node " ++ currentId)
      | some currentNode =>
        if remotesContains currentNode.remotes remote then
          match currentNode.parents with
          | [] => .ok ()
          | p :: _ => validateContiguousRemotes st remote endId fuel p
        else .error ("contiguity broken at " ++ currentId)

/-- Breadth-first collection loop of PushManager::compute_nodes_to_push:
pop the queue front, skip the remote tip, append the node to the result,
enqueue every parent not yet visited.  The queue and visited set are lists;
fuel bounds the loop. -/
def collectNodesToPush (st : Storage) (remoteTip : Option NodeId) :
    Nat → List NodeId → List NodeId → List NodeId → Except String (List NodeId)
  | 0, [], _, acc => .ok acc
  | 0, _ :: _, _, _ => .error "fuel exhausted"
  | _ + 1, [], _, acc => .ok acc
  | fuel + 1, currentId :: queueRest, visited, acc =>
    if remoteTip = some currentId then
      collectNodesToPush st remoteTip fuel queueRest visited acc
    else
      match lookupNode st currentId with
      | none => .error ("failed to get node " ++ currentId)
      | some currentNode =>
        let step := currentNode.parents.foldl
          (fun qv p => if qv.2.contains p then qv else (qv.1 ++ [p], qv.2 ++ [p]))
          (queueRest, visited)
        collectNodesToPush st remoteTip fuel step.1 step.2 (acc ++ [currentId])

/-- PushManager::compute_nodes_to_push, given the already resolved remote
tip: validate contiguity (first-parent walk), short-circuit when the tip is
the requested node, then BFS over all parents and reverse the discovery
order. -/
def computeNodesToPush (st : Storage) (nodeId : NodeId) (remote : RemoteRef)
    (remoteTip : Option NodeId) (fuel : Nat) : Except String (List NodeId) :=
  match validateContiguousRemotes st remote remoteTip fuel nodeId with
  | .error e => .error e
  | .ok _ =>
    if remoteTip = some nodeId then .ok []
    else
      match collectNodesToPush st remoteTip fuel [nodeId] [nodeId] [] with
      | .error e => .error e
      | .ok l => .ok l.reverse

/-- PushManager::compute_nodes_to_push including the resolution of the
remote tip through the backend read_ref oracle. -/
def computeNodesToPushTop (readRef : String → Except String (Option NodeId))
    (st : Storage) (nodeId : NodeId) (remote : RemoteRef) (fuel : Nat) :
    Except String (List NodeId) :=
  match getRemoteTip readRef remote.name with
  | .error e => .error e
  | .ok tip => computeNodesToPush st nodeId remote tip fuel

/-- The chain of nodes actually visited by validate_contiguous_remotes: from
the start node along first parents, stopping at the remote tip (exclusive)
or at a root (inclusive).  Used to state what the validation does and does
not cover. -/
def firstParentPath (st : Storage) (endId : Option NodeId) :
    Nat → NodeId → List NodeId
  | 0, _ => []
  | fuel + 1, currentId =>
    if endId = some currentId then []
    else
      match lookupNode st currentId with
      | none => []
      | some currentNode =>
        match currentNode.parents with
        | [] => [currentId]
        | p :: _ => currentId :: firstParentPath st endId fuel p

/-- Outcome of one git subprocess invocation, the oracle for
GitRepo::run_git_command (backend-git/src/git_repo.rs): the spawn itself can
fail, the command can exit non-zero, or it succeeds with stdout. -/
inductive GitOutcome where
  | ioFailure (msg : String)
  | exitNonZero (stderrText : String)
  | success (stdoutText : String)
deriving DecidableEq, Repr

/-- GitRepo::run_git_command: a spawn failure propagates as an error, a
non-zero exit becomes a formatted error carrying stderr, success yields the
trimmed stdout. -/
def runGitCommand (outcome : GitOutcome) : Except String String :=
  match outcome with
  | .ioFailure m => .error m
  | .exitNonZero errText => .error ("Git error: " ++ errText)
  | .success outText => .ok outText

/-- GitRepo::read_ref: run rev-parse --verify and map the result so that a
successful run yields some hash while ANY failure of run_git_command,
including a spawn failure, yields none. -/
def readRefGit (outcome : GitOutcome) : Except String (Option NodeId) :=
  match runGitCommand outcome with
  | .ok hash => .ok (some hash)
  | .error _ => .ok none

/-- Owning-context selection of GitRepo::checkout_node: the head of the
iteration order of node.remotes, or origin when the set is empty.  The
iteration order of the Rust HashSet is an artifact of hashing and insertion
history, not of the contents of the set, so the enumeration is an explicit
argument here. -/
def checkoutTargetContext (remotesIter : List RemoteRef) : String :=
  match remotesIter with
  | [] => "origin"
  | r :: _ => r.name

/-- Equality of remote-set contents under the (name, url) identity,
independent of enumeration order. -/
def sameRemoteSet (l1 l2 : List RemoteRef) : Bool :=
  l1.all (fun r => remotesContains l2 r) && l2.all (fun r => remotesContains l1 r)

/-- Serialized graph image, the content written by commit_tx. -/
abbrev GraphImage := List (NodeId × Node)

/-- Content of a file in the filesystem model: freshly created and truncated
by File::create, or holding a serialized graph image. -/
inductive FileContent where
  | truncated
  | image (m : GraphImage)
deriving DecidableEq, Repr

/-- Filesystem effects available to commit_tx. -/
inductive FsOp where
  | createDirAll (dir : String)
  | fileCreate (path : String)
  | writeImage (path : String) (m : GraphImage)
  | rename (src : String) (dst : String)
deriving DecidableEq, Repr

/-- Recognizer for the rename effect. -/
def FsOp.isRename : FsOp → Bool
  | .rename _ _ => true
  | _ => false

/-- Filesystem state: path to file content. -/
abbrev Fs := List (String × FileContent)

/-- Store a file content at a path, shadowing any previous content. -/
def fsSet (fs : Fs) (p : String) (c : FileContent) : Fs :=
  (p, c) :: fs.filter (fun kv => kv.1 != p)

/-- Read the content at a path. -/
def fsLookup : Fs → String → Option FileContent
  | [], _ => none
  | kv :: rest, p => if kv.1 == p then some kv.2 else fsLookup rest p

/-- Semantics of one filesystem effect.  File::create truncates the target;
rename moves content atomically. -/
def applyFsOp (fs : Fs) : FsOp → Fs
  | .createDirAll _ => fs
  | .fileCreate p => fsSet fs p .truncated
  | .writeImage p m => fsSet fs p (.image m)
  | .rename src dst =>
    match fsLookup fs src with
    | none => fs
    | some c => fsSet (fs.filter (fun kv => kv.1 != src)) dst c

/-- Run a sequence of filesystem effects. -/
def runFsOps (fs : Fs) (ops : List FsOp) : Fs :=
  ops.foldl applyFsOp fs

/-- Parent directory of a path, as PathBuf::parent on a slash separated
path. -/
def parentDir (p : String) : String :=
  String.intercalate "/" ((p.splitOn "/").dropLast)

/-- Filesystem effects of JsonStorage::commit_tx in source order: create the
parent directory, File::create the database path itself (truncating any
previous content), then serialize the in-memory image into that same path.
There is no temporary sibling path and no rename. -/
def commitTxOps (dbPath : String) (mem : GraphImage) : List FsOp :=
  [FsOp.createDirAll (parentDir dbPath), FsOp.fileCreate dbPath,
   FsOp.writeImage dbPath mem]

/-- Storage-transaction events that add_node can emit, in order. -/
inductive TxOp where
  | beginTx
  | persistOp (id : NodeId)
  | commitTx
  | rollbackTx
deriving DecidableEq, Repr

/-- Backend object-store events that add_node can emit, in order. -/
inductive BackendOp where
  | createTree
  | createCommit
deriving DecidableEq, Repr

/-- Errors of the embedded add_node, separating the error strings of
version_graph.rs and json_storage.rs by kind: a missing node in storage, the
subset-violation string error (carrying the offending remote name), a failed
backend subprocess, and a failed commit of the storage transaction. -/
inductive GppError where
  | notFound (id : NodeId)
  | validation (remoteName : String)
  | backendFailed (msg : String)
  | txFailed (msg : String)
deriving DecidableEq, Repr

/-- Oracle results for the external effects of one add_node call: the
outcome of backend create_tree, the outcome of backend create_commit, and
whether commit_tx succeeds.  A false commitTxOk models a commit_tx that
fails before mutating the on-disk file (for example a failing
create_dir_all or File::create). -/
structure AddEnv where
  treeResult : Except String String
  commitResult : Except String NodeId
  commitTxOk : Bool

/-- Full outcome of one embedded add_node call: the returned value, the
in-memory storage image, the on-disk image, and the emitted transaction and
backend effect logs. -/
structure AddOutcome where
  result : Except GppError NodeId
  mem : Storage
  disk : Option Storage
  txOps : List TxOp
  backendOps : List BackendOp

/-- HashMap get on the allowed-remotes map keyed by remote name. -/
def lookupName : List (String × RemoteRef) → String → Option RemoteRef
  | [], _ => none
  | kv :: rest, k => if kv.1 == k then some kv.2 else lookupName rest k

/-- HashMap insert on the allowed-remotes map: allowed_remotes.insert in
add_node replaces the value when the name is already bound (silently, with
no url-conflict check, as the source comment admits). -/
def insertByName : List (String × RemoteRef) → RemoteRef → List (String × RemoteRef)
  | [], r => [(r.name, r)]
  | kv :: rest, r =>
    if kv.1 == r.name then (kv.1, r) :: rest else kv :: insertByName rest r

/-- First loop of VersionGraph::add_node: load every parent and fold all its
remotes into the allowed map by name. -/
def allowedRemotesAux (st : Storage) :
    List NodeId → List (String × RemoteRef) →
    Except GppError (List (String × RemoteRef))
  | [], acc => .ok acc
  | p :: rest, acc =>
    match lookupNode st p with
    | none => .error (.notFound p)
    | some pNode => allowedRemotesAux st rest (pNode.remotes.foldl insertByName acc)

/-- Requested-remotes loop of add_node for the non-root case: every
requested name must be bound in the allowed map, otherwise the subset
validation error is returned; found entries are set-inserted into the
result. -/
def pickRequested (allowed : List (String × RemoteRef)) :
    List String → List RemoteRef → Except GppError (List RemoteRef)
  | [], acc => .ok acc
  | nm :: rest, acc =>
    match lookupName allowed nm with
    | some r => pickRequested allowed rest (remotesInsert acc r)
    | none => .error (.validation nm)

/-- Final-remotes computation of VersionGraph::add_node: with requested
remotes, roots synthesize empty-url refs and non-roots validate against the
allowed map; without requested remotes, roots get the origin sentinel and
non-roots inherit all allowed values. -/
def computeFinalRemotes (allowed : List (String × RemoteRef))
    (parents : List NodeId) (requested : Option (List String)) :
    Except GppError (List RemoteRef) :=
  match requested with
  | some reqNames =>
    if parents.isEmpty then
      .ok (reqNames.foldl (fun acc nm => remotesInsert acc ⟨nm, "", []⟩) [])
    else
      pickRequested allowed reqNames []
  | none =>
    if parents.isEmpty then
      .ok [⟨"origin", "", []⟩]
    else
      .ok (allowed.map (fun kv => kv.2))

/-- Parent back-reference loop of add_node inside the transaction: load each
parent, insert the child id into its children set, persist it.  Returns the
loop result, the storage image reached (also on failure, since persists
already performed are not undone), and the persist events emitted. -/
def updateParents (childId : NodeId) :
    Storage → List NodeId → (Except GppError Unit) × Storage × List TxOp
  | st, [] => (.ok (), st, [])
  | st, p :: rest =>
    match lookupNode st p with
    | none => (.error (.notFound p), st, [])
    | some pNode =>
      let st1 := persistNode st
        { pNode with children := childrenInsert pNode.children childId }
      let next := updateParents childId st1 rest
      (next.1, next.2.1, TxOp.persistOp pNode.id :: next.2.2)

/-- Node record built by add_node before the transaction: empty children,
tags and metadata, the payload pointing at the created tree, and the
computed final remotes. -/
def builtNode (treeId : String) (commitId : NodeId) (parents : List NodeId)
    (author : Author) (message : String) (finalRemotes : List RemoteRef)
    (now : Nat) : Node :=
  { id := commitId, parents := parents, children := [], author := author,
    message := message, created_at := now, payload := ⟨treeId⟩,
    remotes := finalRemotes, tags := [], metadata := [] }

/-- Translation of VersionGraph::add_node (core/src/version_graph.rs) with
external effects as oracles.  Source order: compute the allowed map from the
parents, compute final remotes (possibly failing with the subset
validation), only then call backend create_tree and create_commit, then
begin a transaction, persist the new node, update every parent, and
commit.  No failure path invokes rollback_tx. -/
def addNode (env : AddEnv) (mem0 : Storage) (disk0 : Option Storage)
    (parents : List NodeId) (author : Author) (message : String)
    (requested : Option (List String)) (now : Nat) : AddOutcome :=
  match allowedRemotesAux mem0 parents [] with
  | .error e => ⟨.error e, mem0, disk0, [], []⟩
  | .ok allowed =>
    match computeFinalRemotes allowed parents requested with
    | .error e => ⟨.error e, mem0, disk0, [], []⟩
    | .ok finalRemotes =>
      match env.treeResult with
      | .error m => ⟨.error (.backendFailed m), mem0, disk0, [], [.createTree]⟩
      | .ok treeId =>
        match env.commitResult with
        | .error m =>
          ⟨.error (.backendFailed m), mem0, disk0, [], [.createTree, .createCommit]⟩
        | .ok commitId =>
          let node := builtNode treeId commitId parents author message finalRemotes now
          let mem1 := persistNode mem0 node
          let upd := updateParents commitId mem1 parents
          let ops0 := TxOp.beginTx :: TxOp.persistOp commitId :: upd.2.2
          match upd.1 with
          | .error e =>
            ⟨.error e, upd.2.1, disk0, ops0, [.createTree, .createCommit]⟩
          | .ok _ =>
            if env.commitTxOk then
              ⟨.ok commitId, upd.2.1, some upd.2.1, ops0 ++ [TxOp.commitTx],
                [.createTree, .createCommit]⟩
            else
              ⟨.error (.txFailed "commit_tx failed"), upd.2.1, disk0,
                ops0 ++ [TxOp.commitTx], [.createTree, .createCommit]⟩

/-- Convenience builder for concrete example nodes. -/
def mkNode (id : NodeId) (parents : List NodeId) (remotes : List RemoteRef) : Node :=
  { id := id, parents := parents, children := [],
    author := ⟨"User", "user@example.com"⟩, message := "msg", created_at := 0,
    payload := ⟨"tree0"⟩, remotes := remotes, tags := [], metadata := [] }

/-- Remote used in the push-contiguity examples. -/
def exRemote : RemoteRef := ⟨"origin", "git@example.com:r.git", []⟩

/-- Merge example: N has parents A and B; A permits the remote, B does
not; N permits it. -/
def c1Store : Storage :=
  [("A", mkNode "A" [] [exRemote]), ("B", mkNode "B" [] []),
   ("N", mkNode "N" ["A", "B"] [exRemote])]

/-- Linear example: RN with single parent RA, both permitting the remote. -/
def c1ChainStore : Storage :=
  [("RA", mkNode "RA" [] [exRemote]), ("RN", mkNode "RN" ["RA"] [exRemote])]

/-- Backend read_ref oracle that knows the ref name the specification
prescribes but not the gpp-internal one. -/
def c7SpecReadRef (ref : String) : Except String (Option NodeId) :=
  if ref == "refs/remotes/origin/main" then .ok (some "deadbeef") else .ok none

/-- Backend read_ref oracle with no refs at all. -/
def c7NoneReadRef : String → Except String (Option NodeId) :=
  fun _ => .ok none

/-- Two distinct remote contexts for the checkout-selector examples. -/
def c9Work : RemoteRef := ⟨"work", "git@host:w.git", []⟩

/-- Second remote context for the checkout-selector examples. -/
def c9Personal : RemoteRef := ⟨"personal", "git@host:p.git", []⟩

/-- Previous on-disk graph image in the commit_tx example. -/
def c2OldImage : GraphImage := [("A", mkNode "A" [] [])]

/-- New in-memory graph image to be committed in the commit_tx example. -/
def c2NewImage : GraphImage :=
  [("A", mkNode "A" [] []), ("B", mkNode "B" ["A"] [])]

/-- Filesystem holding the previous image at the database path. -/
def c2Fs : Fs := [("repo/.gpp/graph.json", FileContent.image c2OldImage)]

/-- Author used in the add_node examples. -/
def exAuthor : Author := ⟨"User", "user@example.com"⟩

/-- Oracle values for an add_node call whose commit_tx fails. -/
def c3Env : AddEnv := ⟨.ok "t3", .ok "C3N", false⟩

/-- Oracle values for an add_node call whose external effects all
succeed. -/
def c4Env : AddEnv := ⟨.ok "t4", .ok "C4N", true⟩

/-- Root node permitting only origin, for the subset-violation examples. -/
def c4Root : Node := mkNode "R4" [] [⟨"origin", "git@host:o.git", []⟩]

/-- Storage holding only the origin-permitting root. -/
def c4Store : Storage := [("R4", c4Root)]

/-- First conflicting remote: name r, first url. -/
def c5RemoteA : RemoteRef := ⟨"r", "git@host:u1.git", []⟩

/-- Second conflicting remote: same name r, different url. -/
def c5RemoteB : RemoteRef := ⟨"r", "git@host:u2.git", []⟩

/-- First parent for the url-conflict example. -/
def c5P1 : Node := mkNode "P1" [] [c5RemoteA]

/-- Second parent for the url-conflict example. -/
def c5P2 : Node := mkNode "P2" [] [c5RemoteB]

/-- Storage with the two url-conflicting parents. -/
def c5Store : Storage := [("P1", c5P1), ("P2", c5P2)]

/-- Oracle values for the url-conflict add_node call. -/
def c5Env : AddEnv := ⟨.ok "t5", .ok "C5N", true⟩

/-- First inherited remote for the inheritance example. -/
def c6Repo1 : RemoteRef := ⟨"repo1", "git@host:r1.git", []⟩

/-- Second inherited remote for the inheritance example. -/
def c6Repo2 : RemoteRef := ⟨"repo2", "git@host:r2.git", []⟩

/-- Root node carrying both remotes for the inheritance example. -/
def c6Root : Node := mkNode "R6" [] [c6Repo1, c6Repo2]

/-- Storage holding the two-remote root. -/
def c6Store : Storage := [("R6", c6Root)]

/-- Oracle values for the inheritance add_node call. -/
def c6Env : AddEnv := ⟨.ok "t6", .ok "C6N", true⟩

end Gpp

/-! ## Theorems -/

namespace Gpp

theorem fsLookup_fsSet_same (fs : Fs) (p : String) (c : FileContent) :
    fsLookup (fsSet fs p c) p = some c := by
  simp [fsSet, fsLookup]

theorem computeNodesToPush_validate_ok (st : Storage) (nodeId : NodeId)
    (remote : RemoteRef) (tip : Option NodeId) (fuel : Nat) (res : List NodeId)
    (h : computeNodesToPush st nodeId remote tip fuel = .ok res) :
    validateContiguousRemotes st remote tip fuel nodeId = .ok () := by
  unfold computeNodesToPush at h
  cases hv : validateContiguousRemotes st remote tip fuel nodeId with
  | error e => rw [hv] at h; exact Except.noConfusion h
  | ok u => cases u; rfl

theorem validate_ok_firstParentPath (st : Storage) (remote : RemoteRef)
    (endId : Option NodeId) :
    ∀ fuel currentId,
      validateContiguousRemotes st remote endId fuel currentId = .ok () →
      ∀ m ∈ firstParentPath st endId fuel currentId,
      ∃ n, lookupNode st m = some n ∧ remotesContains n.remotes remote = true := by
  intro fuel
  induction fuel with
  | zero =>
    intro currentId h
    exact absurd h (by simp [validateContiguousRemotes])
  | succ k ih =>
    intro currentId h m hm
    by_cases htip : endId = some currentId
    · rw [firstParentPath, if_pos htip] at hm
      exact absurd hm (List.not_mem_nil m)
    · rw [validateContiguousRemotes, if_neg htip] at h
      rw [firstParentPath, if_neg htip] at hm
      cases hlook : lookupNode st currentId with
      | none =>
        rw [hlook] at h
        exact Except.noConfusion h
      | some n =>
        simp only [hlook] at h hm
        by_cases hc : remotesContains n.remotes remote = true
        · rw [if_pos hc] at h
          cases hp : n.parents with
          | nil =>
            simp only [hp] at hm
            have hmc : m = currentId := by simpa using hm
            subst hmc
            exact ⟨n, hlook, hc⟩
          | cons p rest =>
            simp only [hp] at h hm
            rcases List.mem_cons.mp hm with hm1 | hm2
            · subst hm1
              exact ⟨n, hlook, hc⟩
            · exact ih p h m hm2
        · rw [if_neg hc] at h
          exact Except.noConfusion h

/-- Claim C1, counterexample: in the merge example the push computation
succeeds for N even though node B, a parent of N and hence on a parent-path
from N back to the (absent) remote tip, does not permit the remote.  Only
the first-parent path is permission-checked by the code. -/
theorem c1_counterexample :
    computeNodesToPush c1Store "N" exRemote none 10 = .ok ["B", "A", "N"] ∧
    "B" ∈ (mkNode "N" ["A", "B"] [exRemote]).parents ∧
    remotesContains (mkNode "B" [] []).remotes exRemote = false :=
  ⟨rfl, by decide, rfl⟩

/-- Claim C1 (amended): if compute_nodes_to_push returns Ok for node N and
remote R, then every node on the FIRST-parent path from N back to the
remote tip (exclusive) permits R; nodes reachable only through non-first
parents are collected by the BFS but are not permission-checked. -/
theorem c1_first_parent_contiguity (st : Storage) (nodeId : NodeId)
    (remote : RemoteRef) (tip : Option NodeId) (fuel : Nat) (res : List NodeId)
    (m : NodeId)
    (hok : computeNodesToPush st nodeId remote tip fuel = .ok res)
    (hm : m ∈ firstParentPath st tip fuel nodeId) :
    ∃ n, lookupNode st m = some n ∧ remotesContains n.remotes remote = true :=
  validate_ok_firstParentPath st remote tip fuel nodeId
    (computeNodesToPush_validate_ok st nodeId remote tip fuel res hok) m hm

/-- Claim C1 witness: the amended theorem applied to the linear example at
node RA on the first-parent path of RN. -/
theorem c1_first_parent_contiguity_witness :
    ∃ n, lookupNode c1ChainStore "RA" = some n ∧
      remotesContains n.remotes exRemote = true :=
  c1_first_parent_contiguity c1ChainStore "RN" exRemote none 10 ["RA", "RN"]
    "RA" rfl (by decide)

/-- Claim C2, counterexample: commit_tx truncates the database file in
place (File::create) before writing; interrupting the effect sequence right
after the truncation leaves the file empty, not the previous image, and the
sequence contains no rename at all. -/
theorem c2_counterexample :
    fsLookup (runFsOps c2Fs ((commitTxOps "repo/.gpp/graph.json" c2NewImage).take 2))
        "repo/.gpp/graph.json" = some FileContent.truncated ∧
    fsLookup c2Fs "repo/.gpp/graph.json" = some (FileContent.image c2OldImage) ∧
    FileContent.truncated ≠ FileContent.image c2OldImage ∧
    (commitTxOps "repo/.gpp/graph.json" c2NewImage).all
      (fun op => ! op.isRename) = true :=
  ⟨rfl, rfl, by decide, rfl⟩

/-- Claim C2 (amended): commit_tx writes the serialized image directly to
the database path: it truncates the target with File::create and then
serializes into it, with no sibling temporary path and no rename.  Running
the whole sequence replaces the image, but a failure between truncation and
write leaves an empty file in place of the previous image. -/
theorem c2_direct_write (fs : Fs) (dbPath : String) (mem : GraphImage) :
    fsLookup (runFsOps fs (commitTxOps dbPath mem)) dbPath =
      some (FileContent.image mem) ∧
    (commitTxOps dbPath mem).all (fun op => ! op.isRename) = true ∧
    fsLookup (runFsOps fs ((commitTxOps dbPath mem).take 2)) dbPath =
      some FileContent.truncated := by
  refine ⟨?_, rfl, ?_⟩
  · simp [commitTxOps, runFsOps, applyFsOp, fsLookup_fsSet_same]
  · simp [commitTxOps, runFsOps, applyFsOp, fsLookup_fsSet_same]

/-- Claim C7, counterexample: the remote tip is read from the gpp-internal
ref refs/gpp/remote/<name>, not from refs/remotes/<name>/<branch>; an
oracle that has refs/remotes/origin/main bound still yields none. -/
theorem c7_counterexample :
    remoteTipRefName "origin" = "refs/gpp/remote/origin" ∧
    remoteTipRefName "origin" ≠ "refs/remotes/origin/main" ∧
    getRemoteTip c7SpecReadRef "origin" = .ok none ∧
    c7SpecReadRef "refs/remotes/origin/main" = .ok (some "deadbeef") :=
  ⟨rfl, by decide, rfl, rfl⟩

/-- Claim C7 (amended): the push computation resolves the remote head by
calling the backend read_ref at exactly refs/gpp/remote/<remote.name> (no
branch component): the result depends on the read_ref oracle only through
that single ref name, and when that ref is missing (Ok none) the
computation proceeds with no remote tip (first push). -/
theorem c7_remote_tip_ref (readRefA readRefB readRefC :
      String → Except String (Option NodeId))
    (st : Storage) (nodeId : NodeId) (remote : RemoteRef) (fuel : Nat)
    (hAB : readRefA (remoteTipRefName remote.name) =
      readRefB (remoteTipRefName remote.name))
    (hC : readRefC (remoteTipRefName remote.name) = .ok none) :
    computeNodesToPushTop readRefA st nodeId remote fuel =
      computeNodesToPushTop readRefB st nodeId remote fuel ∧
    computeNodesToPushTop readRefC st nodeId remote fuel =
      computeNodesToPush st nodeId remote none fuel := by
  constructor
  · unfold computeNodesToPushTop getRemoteTip
    rw [hAB]
  · unfold computeNodesToPushTop getRemoteTip
    rw [hC]

/-- Claim C7 witness: the amended theorem applied to the all-refs-missing
oracle on the empty storage. -/
theorem c7_remote_tip_ref_witness :
    computeNodesToPushTop c7NoneReadRef [] "N" ⟨"origin", "", []⟩ 1 =
      computeNodesToPushTop c7NoneReadRef [] "N" ⟨"origin", "", []⟩ 1 ∧
    computeNodesToPushTop c7NoneReadRef [] "N" ⟨"origin", "", []⟩ 1 =
      computeNodesToPush [] "N" ⟨"origin", "", []⟩ none 1 :=
  c7_remote_tip_ref c7NoneReadRef c7NoneReadRef c7NoneReadRef [] "N"
    ⟨"origin", "", []⟩ 1 rfl rfl

/-- Claim C8: evaluation at the failing input.  When the git subprocess
cannot even be spawned (an IO failure), run_git_command propagates the
error, but read_ref maps it to Ok none, reporting a missing ref instead of
propagating the error as both the claim and the RepoBackend contract in
core/src/backend.rs require. -/
theorem c8_read_ref_swallows_io :
    readRefGit (GitOutcome.ioFailure "No such file or directory (os error 2)") =
      .ok none ∧
    runGitCommand (GitOutcome.ioFailure "No such file or directory (os error 2)") =
      .error "No such file or directory (os error 2)" ∧
    readRefGit (GitOutcome.success "deadbeef") = .ok (some "deadbeef") ∧
    readRefGit (GitOutcome.exitNonZero "fatal: needed a single revision") =
      .ok none :=
  ⟨rfl, rfl, rfl, rfl⟩

/-- Claim C9, counterexample: the owning-context selector of checkout_node
is the head of the hash-set iteration order, which is not a function of the
set contents: two enumerations of the same remote set (under the
(name, url) identity) select different contexts. -/
theorem c9_counterexample :
    sameRemoteSet [c9Work, c9Personal] [c9Personal, c9Work] = true ∧
    checkoutTargetContext [c9Work, c9Personal] ≠
      checkoutTargetContext [c9Personal, c9Work] :=
  ⟨rfl, by decide⟩

/-- Claim C9 (amended): the selector returns the name of the first remote
in the iteration order of node.remotes, with the fallback origin when the
set is empty; it is deterministic only for a fixed enumeration order, and
the chosen context is always the name of some member of the set or
origin. -/
theorem c9_selector_head (l : List RemoteRef) :
    (l = [] → checkoutTargetContext l = "origin") ∧
    (l ≠ [] → ∃ r, r ∈ l ∧ checkoutTargetContext l = r.name) := by
  cases l with
  | nil => exact ⟨fun _ => rfl, fun h => absurd rfl h⟩
  | cons r rest =>
    exact ⟨fun h => List.noConfusion h,
      fun _ => ⟨r, List.mem_cons_self r rest, rfl⟩⟩

/-- Claim C9 witness: the amended theorem applied to the empty enumeration
and to a singleton enumeration. -/
theorem c9_selector_head_witness :
    checkoutTargetContext [] = "origin" ∧
    ∃ r, r ∈ [c9Work] ∧ checkoutTargetContext [c9Work] = r.name :=
  ⟨(c9_selector_head []).1 rfl, (c9_selector_head [c9Work]).2 (by decide)⟩

theorem lookupNode_persist_self (st : Storage) (n : Node) (k : NodeId)
    (hk : n.id = k) : lookupNode (persistNode st n) k = some n := by
  subst hk
  simp [persistNode, lookupNode]

theorem lookupNode_filterOut (x k : NodeId) (h : k ≠ x) (st : Storage) :
    lookupNode (st.filter (fun kv => kv.1 != x)) k = lookupNode st k := by
  induction st with
  | nil => rfl
  | cons kv rest ih =>
    by_cases hx : kv.1 = x
    · have h2 : (kv.1 == k) = false := by
        rw [hx]
        exact beq_eq_false_iff_ne.mpr (Ne.symm h)
      simp [List.filter_cons, hx, lookupNode, h2, ih, Ne.symm h]
    · have h1 : (kv.1 != x) = true := by simp [hx]
      simp [List.filter_cons, h1, lookupNode, ih]

theorem lookupNode_persist_ne (st : Storage) (n : Node) (k : NodeId)
    (h : k ≠ n.id) : lookupNode (persistNode st n) k = lookupNode st k := by
  have h2 : (n.id == k) = false := beq_eq_false_iff_ne.mpr (Ne.symm h)
  simp only [persistNode, lookupNode, h2, Bool.false_eq_true, if_false]
  exact lookupNode_filterOut n.id k h st

theorem lookupNode_persist_isSome (st : Storage) (n : Node) (k : NodeId)
    (h : (lookupNode st k).isSome = true) :
    (lookupNode (persistNode st n) k).isSome = true := by
  by_cases hk : k = n.id
  · rw [lookupNode_persist_self st n k hk.symm]
    rfl
  · rw [lookupNode_persist_ne st n k hk]
    exact h

theorem storageWF_lookup (st : Storage) :
    ∀ (k : NodeId) (n : Node), storageWF st = true →
      lookupNode st k = some n → n.id = k := by
  induction st with
  | nil =>
    intro k n _ h
    exact Option.noConfusion h
  | cons kv rest ih =>
    intro k n hwf h
    rw [storageWF, List.all_cons, Bool.and_eq_true] at hwf
    simp only [lookupNode] at h
    by_cases hk : (kv.1 == k) = true
    · rw [if_pos hk] at h
      have hn : kv.2 = n := by injection h
      have hid : kv.2.id = kv.1 := by
        have := hwf.1
        exact beq_iff_eq.mp this
      rw [← hn, hid]
      exact beq_iff_eq.mp hk
    · rw [if_neg hk] at h
      exact ih k n hwf.2 h

theorem storageWF_persist (st : Storage) (n : Node)
    (hwf : storageWF st = true) : storageWF (persistNode st n) = true := by
  rw [storageWF, persistNode, List.all_cons, Bool.and_eq_true]
  constructor
  · exact beq_self_eq_true n.id
  · rw [List.all_eq_true]
    intro x hx
    rw [storageWF, List.all_eq_true] at hwf
    exact hwf x (List.mem_filter.mp hx).1

theorem updateParents_ok (childId : NodeId) :
    ∀ (ps : List NodeId) (st : Storage),
      (∀ p ∈ ps, (lookupNode st p).isSome = true) →
      (updateParents childId st ps).1 = .ok () := by
  intro ps
  induction ps with
  | nil =>
    intro st _
    rfl
  | cons p rest ih =>
    intro st h
    have hp := h p (List.mem_cons_self p rest)
    cases hlook : lookupNode st p with
    | none =>
      rw [hlook] at hp
      exact Bool.noConfusion hp
    | some pn =>
      simp only [updateParents, hlook]
      exact ih _ (fun q hq =>
        lookupNode_persist_isSome _ _ _ (h q (List.mem_cons_of_mem p hq)))

theorem updateParents_isSome (childId k : NodeId) :
    ∀ (ps : List NodeId) (st : Storage),
      (lookupNode st k).isSome = true →
      (lookupNode (updateParents childId st ps).2.1 k).isSome = true := by
  intro ps
  induction ps with
  | nil =>
    intro st h
    exact h
  | cons p rest ih =>
    intro st h
    cases hlook : lookupNode st p with
    | none =>
      simp only [updateParents, hlook]
      exact h
    | some pn =>
      simp only [updateParents, hlook]
      exact ih _ (lookupNode_persist_isSome _ _ _ h)

theorem updateParents_lookup_notMem (childId : NodeId) :
    ∀ (ps : List NodeId) (st : Storage) (k : NodeId),
      storageWF st = true → k ∉ ps →
      lookupNode (updateParents childId st ps).2.1 k = lookupNode st k := by
  intro ps
  induction ps with
  | nil =>
    intro st k _ _
    rfl
  | cons p rest ih =>
    intro st k hwf hk
    have hkp : k ≠ p := fun e => hk (e ▸ List.mem_cons_self p rest)
    have hkrest : k ∉ rest := fun hm => hk (List.mem_cons_of_mem p hm)
    cases hlook : lookupNode st p with
    | none =>
      simp only [updateParents, hlook]
    | some pn =>
      have hid : pn.id = p := storageWF_lookup st p pn hwf hlook
      simp only [updateParents, hlook]
      rw [ih _ k (storageWF_persist _ _ hwf) hkrest]
      have hne2 : k ≠ ({ pn with
          children := childrenInsert pn.children childId } : Node).id := by
        show k ≠ pn.id
        rw [hid]
        exact hkp
      exact lookupNode_persist_ne _ _ _ hne2

theorem updateParents_ops_persist (childId : NodeId) :
    ∀ (ps : List NodeId) (st : Storage) (op : TxOp),
      op ∈ (updateParents childId st ps).2.2 → ∃ i, op = TxOp.persistOp i := by
  intro ps
  induction ps with
  | nil =>
    intro st op h
    exact absurd h (List.not_mem_nil op)
  | cons p rest ih =>
    intro st op h
    cases hlook : lookupNode st p with
    | none =>
      simp only [updateParents, hlook] at h
      exact absurd h (List.not_mem_nil op)
    | some pn =>
      simp only [updateParents, hlook] at h
      rcases List.mem_cons.mp h with h1 | h2
      · exact ⟨pn.id, h1⟩
      · exact ih _ op h2

theorem pickRequested_missing (allowed : List (String × RemoteRef)) :
    ∀ (names : List String) (acc : List RemoteRef) (nm : String),
      nm ∈ names → lookupName allowed nm = none →
      ∃ m, pickRequested allowed names acc = .error (.validation m) := by
  intro names
  induction names with
  | nil =>
    intro acc nm h
    exact absurd h (List.not_mem_nil nm)
  | cons hd tl ih =>
    intro acc nm hmem hmiss
    cases hl : lookupName allowed hd with
    | none =>
      exact ⟨hd, by simp [pickRequested, hl]⟩
    | some r =>
      rcases List.mem_cons.mp hmem with he | ht
      · rw [he] at hmiss
        rw [hl] at hmiss
        exact Option.noConfusion hmiss
      · have h2 := ih (remotesInsert acc r) nm ht hmiss
        rcases h2 with ⟨m, hm⟩
        exact ⟨m, by simp [pickRequested, hl, hm]⟩

theorem addNode_tx_reached (env : AddEnv) (mem0 : Storage)
    (disk0 : Option Storage) (parents : List NodeId) (author : Author)
    (message : String) (requested : Option (List String)) (now : Nat)
    (allowed : List (String × RemoteRef)) (finrem : List RemoteRef)
    (treeId : String) (commitId : NodeId)
    (hal : allowedRemotesAux mem0 parents [] = .ok allowed)
    (hfin : computeFinalRemotes allowed parents requested = .ok finrem)
    (htree : env.treeResult = .ok treeId)
    (hcommit : env.commitResult = .ok commitId)
    (hupd : (updateParents commitId
        (persistNode mem0 (builtNode treeId commitId parents author message finrem now))
        parents).1 = .ok ()) :
    addNode env mem0 disk0 parents author message requested now =
      (if env.commitTxOk then
        { result := .ok commitId,
          mem := (updateParents commitId
            (persistNode mem0 (builtNode treeId commitId parents author message finrem now))
            parents).2.1,
          disk := some (updateParents commitId
            (persistNode mem0 (builtNode treeId commitId parents author message finrem now))
            parents).2.1,
          txOps := TxOp.beginTx :: TxOp.persistOp commitId :: (updateParents commitId
            (persistNode mem0 (builtNode treeId commitId parents author message finrem now))
            parents).2.2 ++ [TxOp.commitTx],
          backendOps := [.createTree, .createCommit] }
      else
        { result := .error (.txFailed "commit_tx failed"),
          mem := (updateParents commitId
            (persistNode mem0 (builtNode treeId commitId parents author message finrem now))
            parents).2.1,
          disk := disk0,
          txOps := TxOp.beginTx :: TxOp.persistOp commitId :: (updateParents commitId
            (persistNode mem0 (builtNode treeId commitId parents author message finrem now))
            parents).2.2 ++ [TxOp.commitTx],
          backendOps := [.createTree, .createCommit] }) := by
  simp only [addNode, hal, hfin, htree, hcommit, hupd]

theorem addNode_ok_lookup (env : AddEnv) (mem0 : Storage)
    (disk0 : Option Storage) (parents : List NodeId) (author : Author)
    (message : String) (requested : Option (List String)) (now : Nat)
    (allowed : List (String × RemoteRef)) (finrem : List RemoteRef)
    (treeId : String) (commitId : NodeId)
    (hal : allowedRemotesAux mem0 parents [] = .ok allowed)
    (hfin : computeFinalRemotes allowed parents requested = .ok finrem)
    (htree : env.treeResult = .ok treeId)
    (hcommit : env.commitResult = .ok commitId)
    (hctx : env.commitTxOk = true)
    (hwf : storageWF mem0 = true)
    (hpresent : ∀ p ∈ parents, (lookupNode mem0 p).isSome = true)
    (hfresh : commitId ∉ parents) :
    (addNode env mem0 disk0 parents author message requested now).result =
      .ok commitId ∧
    lookupNode (addNode env mem0 disk0 parents author message requested now).mem
        commitId =
      some (builtNode treeId commitId parents author message finrem now) := by
  have hupd : (updateParents commitId
      (persistNode mem0 (builtNode treeId commitId parents author message finrem now))
      parents).1 = .ok () :=
    updateParents_ok commitId parents _
      (fun p hp => lookupNode_persist_isSome _ _ _ (hpresent p hp))
  have heq := addNode_tx_reached env mem0 disk0 parents author message
    requested now allowed finrem treeId commitId hal hfin htree hcommit hupd
  rw [if_pos hctx] at heq
  constructor
  · rw [heq]
  · rw [heq]
    show lookupNode (updateParents commitId
      (persistNode mem0 (builtNode treeId commitId parents author message finrem now))
      parents).2.1 commitId =
      some (builtNode treeId commitId parents author message finrem now)
    rw [updateParents_lookup_notMem commitId parents _ commitId
      (storageWF_persist _ _ hwf) hfresh]
    exact lookupNode_persist_self mem0 _ commitId rfl

/-- Claim C3, counterexample: an add_node call whose commit_tx fails (on an
empty storage, no parents) propagates the transaction error, yet the
emitted storage-operation log contains no rollback_tx: the code of
VersionGraph::add_node never invokes rollback_tx on any failure path. -/
theorem c3_counterexample :
    (addNode c3Env [] none [] exAuthor "m" none 0).result =
      .error (.txFailed "commit_tx failed") ∧
    TxOp.rollbackTx ∉ (addNode c3Env [] none [] exAuthor "m" none 0).txOps ∧
    TxOp.commitTx ∈ (addNode c3Env [] none [] exAuthor "m" none 0).txOps :=
  ⟨rfl, by decide, by decide⟩

/-- Claim C3 (amended): when the storage sequence of add_node fails at
commit_tx, the error propagates WITHOUT any rollback_tx call: the
transaction log records begin, the persists and the attempted commit but no
rollback, the in-memory image retains the partially applied mutation (the
new node is still present), and the on-disk image is unchanged (the failure
is modelled as occurring before the commit write mutates the file). -/
theorem c3_no_rollback (env : AddEnv) (mem0 : Storage) (disk0 : Option Storage)
    (parents : List NodeId) (author : Author) (message : String)
    (requested : Option (List String)) (now : Nat)
    (allowed : List (String × RemoteRef)) (finrem : List RemoteRef)
    (treeId : String) (commitId : NodeId)
    (hal : allowedRemotesAux mem0 parents [] = .ok allowed)
    (hfin : computeFinalRemotes allowed parents requested = .ok finrem)
    (htree : env.treeResult = .ok treeId)
    (hcommit : env.commitResult = .ok commitId)
    (hpresent : ∀ p ∈ parents, (lookupNode mem0 p).isSome = true)
    (hfail : env.commitTxOk = false) :
    (addNode env mem0 disk0 parents author message requested now).result =
      .error (.txFailed "commit_tx failed") ∧
    TxOp.rollbackTx ∉
      (addNode env mem0 disk0 parents author message requested now).txOps ∧
    TxOp.commitTx ∈
      (addNode env mem0 disk0 parents author message requested now).txOps ∧
    (lookupNode (addNode env mem0 disk0 parents author message requested now).mem
      commitId).isSome = true ∧
    (addNode env mem0 disk0 parents author message requested now).disk = disk0 := by
  have hupd : (updateParents commitId
      (persistNode mem0 (builtNode treeId commitId parents author message finrem now))
      parents).1 = .ok () :=
    updateParents_ok commitId parents _
      (fun p hp => lookupNode_persist_isSome _ _ _ (hpresent p hp))
  have hcond : ¬(env.commitTxOk = true) := by
    rw [hfail]
    exact Bool.false_ne_true
  have heq := addNode_tx_reached env mem0 disk0 parents author message
    requested now allowed finrem treeId commitId hal hfin htree hcommit hupd
  rw [if_neg hcond] at heq
  refine ⟨by rw [heq], ?_, ?_, ?_, by rw [heq]⟩
  · rw [heq]
    show TxOp.rollbackTx ∉ TxOp.beginTx :: TxOp.persistOp commitId ::
      (updateParents commitId
        (persistNode mem0 (builtNode treeId commitId parents author message finrem now))
        parents).2.2 ++ [TxOp.commitTx]
    intro hmem
    rcases List.mem_cons.mp hmem with h1 | hmem2
    · exact TxOp.noConfusion h1
    rcases List.mem_cons.mp hmem2 with h2 | hmem3
    · exact TxOp.noConfusion h2
    rcases List.mem_append.mp hmem3 with h3 | h4
    · rcases updateParents_ops_persist commitId parents _ _ h3 with ⟨i, hi⟩
      exact TxOp.noConfusion hi
    · exact TxOp.noConfusion (List.mem_singleton.mp h4)
  · rw [heq]
    show TxOp.commitTx ∈ TxOp.beginTx :: TxOp.persistOp commitId ::
      (updateParents commitId
        (persistNode mem0 (builtNode treeId commitId parents author message finrem now))
        parents).2.2 ++ [TxOp.commitTx]
    exact List.mem_cons_of_mem _ (List.mem_cons_of_mem _
      (List.mem_append.mpr (Or.inr (List.mem_singleton.mpr rfl))))
  · rw [heq]
    show (lookupNode (updateParents commitId
      (persistNode mem0 (builtNode treeId commitId parents author message finrem now))
      parents).2.1 commitId).isSome = true
    exact updateParents_isSome commitId commitId parents _
      (by rw [lookupNode_persist_self mem0 _ commitId rfl]; rfl)

/-- Claim C3 witness: the amended theorem applied to the concrete failing
call of the counterexample scenario. -/
theorem c3_no_rollback_witness :
    (addNode c3Env [] none [] exAuthor "m" none 0).result =
      .error (.txFailed "commit_tx failed") ∧
    TxOp.rollbackTx ∉ (addNode c3Env [] none [] exAuthor "m" none 0).txOps ∧
    TxOp.commitTx ∈ (addNode c3Env [] none [] exAuthor "m" none 0).txOps ∧
    (lookupNode (addNode c3Env [] none [] exAuthor "m" none 0).mem
      "C3N").isSome = true ∧
    (addNode c3Env [] none [] exAuthor "m" none 0).disk = none :=
  c3_no_rollback c3Env [] none [] exAuthor "m" none 0 []
    [⟨"origin", "", []⟩] "t3" "C3N" rfl rfl rfl rfl (by simp) rfl

theorem addNode_subset_violation_eq (env : AddEnv) (mem0 : Storage)
    (disk0 : Option Storage) (parents : List NodeId) (author : Author)
    (message : String) (now : Nat) (names : List String)
    (allowed : List (String × RemoteRef)) (nm : String)
    (hal : allowedRemotesAux mem0 parents [] = .ok allowed)
    (hne : parents ≠ [])
    (hmem : nm ∈ names)
    (hmiss : lookupName allowed nm = none) :
    ∃ m, addNode env mem0 disk0 parents author message (some names) now =
      { result := .error (.validation m), mem := mem0, disk := disk0,
        txOps := [], backendOps := [] } := by
  rcases pickRequested_missing allowed names [] nm hmem hmiss with ⟨m, hpick⟩
  refine ⟨m, ?_⟩
  rcases List.exists_cons_of_ne_nil hne with ⟨p, ps, rfl⟩
  simp only [addNode, hal, computeFinalRemotes, List.isEmpty_cons,
    Bool.false_eq_true, if_false, hpick]

/-- Claim C4: an add_node call with non-empty parents and a requested
remote name absent from the allowed union fails with the subset
ValidationError and leaves the storage image, the on-disk image and the
transaction log untouched, so no node with the would-be child id is
created. -/
theorem c4_subset_violation (env : AddEnv) (mem0 : Storage)
    (disk0 : Option Storage) (parents : List NodeId) (author : Author)
    (message : String) (now : Nat) (names : List String)
    (allowed : List (String × RemoteRef)) (nm : String)
    (hal : allowedRemotesAux mem0 parents [] = .ok allowed)
    (hne : parents ≠ [])
    (hmem : nm ∈ names)
    (hmiss : lookupName allowed nm = none) :
    ∃ m, addNode env mem0 disk0 parents author message (some names) now =
      { result := .error (.validation m), mem := mem0, disk := disk0,
        txOps := [], backendOps := [] } :=
  addNode_subset_violation_eq env mem0 disk0 parents author message now names
    allowed nm hal hne hmem hmiss

/-- Claim C4 witness: the theorem applied to the subset-violation scenario
of the functional tests: a root permitting only origin and a child
requesting secret. -/
theorem c4_subset_violation_witness :
    ∃ m, addNode c4Env c4Store none ["R4"] exAuthor "hack" (some ["secret"]) 0 =
      { result := .error (.validation m), mem := c4Store, disk := none,
        txOps := [], backendOps := [] } :=
  c4_subset_violation c4Env c4Store none ["R4"] exAuthor "hack" 0 ["secret"]
    [("origin", ⟨"origin", "git@host:o.git", []⟩)] "secret" rfl
    (by decide) (by decide) rfl

/-- Claim C10 (implicit frame effect): when the subset validation fails, no
backend operation has been performed: create_tree and create_commit are
invoked only after the remote-permission validation succeeds, so the failed
add_node leaves the object store untouched (empty backend effect log). -/
theorem c10_no_backend_effects (env : AddEnv) (mem0 : Storage)
    (disk0 : Option Storage) (parents : List NodeId) (author : Author)
    (message : String) (now : Nat) (names : List String)
    (allowed : List (String × RemoteRef)) (nm : String)
    (hal : allowedRemotesAux mem0 parents [] = .ok allowed)
    (hne : parents ≠ [])
    (hmem : nm ∈ names)
    (hmiss : lookupName allowed nm = none) :
    (addNode env mem0 disk0 parents author message (some names) now).backendOps =
      [] ∧
    ∃ m, (addNode env mem0 disk0 parents author message (some names) now).result =
      .error (.validation m) := by
  rcases addNode_subset_violation_eq env mem0 disk0 parents author message now
    names allowed nm hal hne hmem hmiss with ⟨m, heq⟩
  rw [heq]
  exact ⟨rfl, m, rfl⟩

/-- Claim C10 witness: the theorem applied to the same concrete
subset-violation scenario. -/
theorem c10_no_backend_effects_witness :
    (addNode c4Env c4Store none ["R4"] exAuthor "hack" (some ["secret"]) 0).backendOps =
      [] ∧
    ∃ m, (addNode c4Env c4Store none ["R4"] exAuthor "hack"
      (some ["secret"]) 0).result = .error (.validation m) :=
  c10_no_backend_effects c4Env c4Store none ["R4"] exAuthor "hack" 0 ["secret"]
    [("origin", ⟨"origin", "git@host:o.git", []⟩)] "secret" rfl
    (by decide) (by decide) rfl

/-- Claim C5, counterexample: two parents carrying the same remote name
with different urls do NOT make add_node fail with a RemoteConflict: the
call succeeds, and the resulting child silently carries the remote of the
LATER parent (the HashMap insert overwrote the earlier binding). -/
theorem c5_counterexample :
    (addNode c5Env c5Store none ["P1", "P2"] exAuthor "merge" none 0).result =
      .ok "C5N" ∧
    (lookupNode (addNode c5Env c5Store none ["P1", "P2"] exAuthor "merge"
        none 0).mem "C5N").map Node.remotes = some [c5RemoteB] ∧
    c5RemoteA.name = c5RemoteB.name ∧
    c5RemoteA.url ≠ c5RemoteB.url :=
  ⟨rfl, rfl, rfl, by decide⟩

/-- Claim C5 (amended): when two parents carry remotes with the same name,
add_node raises no error, whether or not the urls agree: the later parent
silently overwrites the earlier binding in the allowed map, so the child
created without requested remotes carries exactly the later occurrence. -/
theorem c5_last_occurrence_wins (env : AddEnv) (mem0 : Storage)
    (disk0 : Option Storage) (author : Author) (message : String) (now : Nat)
    (id1 id2 : NodeId) (p1 p2 : Node) (a b : RemoteRef)
    (treeId : String) (commitId : NodeId)
    (h1 : lookupNode mem0 id1 = some p1)
    (h2 : lookupNode mem0 id2 = some p2)
    (hr1 : p1.remotes = [a])
    (hr2 : p2.remotes = [b])
    (hname : a.name = b.name)
    (htree : env.treeResult = .ok treeId)
    (hcommit : env.commitResult = .ok commitId)
    (hctx : env.commitTxOk = true)
    (hwf : storageWF mem0 = true)
    (hfresh : commitId ∉ [id1, id2]) :
    (addNode env mem0 disk0 [id1, id2] author message none now).result =
      .ok commitId ∧
    (lookupNode (addNode env mem0 disk0 [id1, id2] author message none
        now).mem commitId).map Node.remotes = some [b] := by
  have hal : allowedRemotesAux mem0 [id1, id2] [] = .ok [(b.name, b)] := by
    simp [allowedRemotesAux, h1, h2, hr1, hr2, insertByName, hname]
  have hfin : computeFinalRemotes [(b.name, b)] [id1, id2] none = .ok [b] := rfl
  have hpresent : ∀ p ∈ [id1, id2], (lookupNode mem0 p).isSome = true := by
    intro p hp
    rcases List.mem_cons.mp hp with e1 | hp2
    · rw [e1, h1]; rfl
    · rcases List.mem_singleton.mp hp2 with e2
      rw [e2, h2]; rfl
  have hmain := addNode_ok_lookup env mem0 disk0 [id1, id2] author message
    none now [(b.name, b)] [b] treeId commitId hal hfin htree hcommit hctx
    hwf hpresent hfresh
  refine ⟨hmain.1, ?_⟩
  rw [hmain.2]
  rfl

/-- Claim C5 witness: the amended theorem applied to the concrete
url-conflict scenario. -/
theorem c5_last_occurrence_wins_witness :
    (addNode c5Env c5Store none ["P1", "P2"] exAuthor "merge" none 0).result =
      .ok "C5N" ∧
    (lookupNode (addNode c5Env c5Store none ["P1", "P2"] exAuthor "merge"
        none 0).mem "C5N").map Node.remotes = some [c5RemoteB] :=
  c5_last_occurrence_wins c5Env c5Store none exAuthor "merge" 0 "P1" "P2"
    c5P1 c5P2 c5RemoteA c5RemoteB "t5" "C5N" rfl rfl rfl rfl rfl rfl rfl rfl
    rfl (by decide)

/-- Claim C6: an add_node call without requested remotes creates a node
whose remotes are the origin sentinel when there are no parents, and
otherwise exactly the values of the name-indexed union of the remotes of
all parents, so a child added without flags inherits all parental
remotes. -/
theorem c6_inherit_all (env : AddEnv) (mem0 : Storage) (disk0 : Option Storage)
    (parents : List NodeId) (author : Author) (message : String) (now : Nat)
    (allowed : List (String × RemoteRef)) (treeId : String) (commitId : NodeId)
    (hal : allowedRemotesAux mem0 parents [] = .ok allowed)
    (htree : env.treeResult = .ok treeId)
    (hcommit : env.commitResult = .ok commitId)
    (hctx : env.commitTxOk = true)
    (hwf : storageWF mem0 = true)
    (hpresent : ∀ p ∈ parents, (lookupNode mem0 p).isSome = true)
    (hfresh : commitId ∉ parents) :
    (addNode env mem0 disk0 parents author message none now).result =
      .ok commitId ∧
    (lookupNode (addNode env mem0 disk0 parents author message none
        now).mem commitId).map Node.remotes =
      some (if parents.isEmpty then [⟨"origin", "", []⟩]
            else allowed.map (fun kv => kv.2)) := by
  have hfin : computeFinalRemotes allowed parents none =
      .ok (if parents.isEmpty then [⟨"origin", "", []⟩]
           else allowed.map (fun kv => kv.2)) := by
    simp only [computeFinalRemotes]
    cases parents.isEmpty with
    | false => simp
    | true => simp
  have hmain := addNode_ok_lookup env mem0 disk0 parents author message
    none now allowed _ treeId commitId hal hfin htree hcommit hctx hwf
    hpresent hfresh
  refine ⟨hmain.1, ?_⟩
  rw [hmain.2]
  rfl

/-- Claim C6 witness: the theorem applied to the inheritance scenario of
the functional tests: a root with remotes repo1 and repo2 and a child added
without flags, which inherits both. -/
theorem c6_inherit_all_witness :
    (addNode c6Env c6Store none ["R6"] exAuthor "child" none 0).result =
      .ok "C6N" ∧
    (lookupNode (addNode c6Env c6Store none ["R6"] exAuthor "child" none
        0).mem "C6N").map Node.remotes =
      some (if (["R6"] : List NodeId).isEmpty then [⟨"origin", "", []⟩]
            else [("repo1", c6Repo1), ("repo2", c6Repo2)].map (fun kv => kv.2)) :=
  c6_inherit_all c6Env c6Store none ["R6"] exAuthor "child" 0
    [("repo1", c6Repo1), ("repo2", c6Repo2)] "t6" "C6N" rfl rfl rfl rfl rfl
    (by simp [lookupNode, c6Store]) (by decide)

end Gpp
